import Mathlib

/-!
Shallow embedding of the glossary record-management service
(`src/main_app.py`): the `GlossaryDatabase` record store (identifier
allocation, lookup, search, create/update/delete, JSON persistence) and
the pagination handler layered on top of it.

Modelling conventions:
* Python dict records become the `Term` structure; the in-memory
  `{"glossary": [...]}` document becomes the `GlossaryDatabase` structure.
* Timestamps (`datetime.now().isoformat()`) are abstract instants modelled
  as `Nat`; the sortable textual ISO form is reflected by the `≤` order on
  instants.  The operation receives its instant `now` as a parameter;
  the two `datetime.now()` calls inside `create` happen at the operation's
  single current instant.
* `_save_data` performs file I/O that can fail; mutating operations take a
  `saveOk : Bool` flag telling whether that write succeeds, and return an
  `Except StorageError _`, mirroring the Python exception that propagates
  out of `json.dump`/`open` (there is no try/except in the source).
* Pydantic `GlossaryTermUpdate` with `model_dump(exclude_unset=True)`
  distinguishes a field that is absent, explicitly `null`, and set to a
  value; `UpdField` models this tri-state.
-/

/-- A glossary term record, the dict built in `GlossaryDatabase.create`
(`main_app.py` lines 100-110).  `category` is `Option` because `search`
and the statistics handler access it with `dict.get`, i.e. the key may be
absent in a loaded document. -/
structure Term where
  id : Nat
  title : String
  definition : String
  category : Option String
  examples : List String
  related_terms : List String
  source : String
  created_at : Nat
  updated_at : Nat
deriving Repr, DecidableEq, Inhabited

/-- Storage faults of the persistence layer (spec §7). -/
inductive StorageError where
  | writeFailed
  | unavailable
deriving Repr, DecidableEq

/-- The in-memory state of `GlossaryDatabase`: the `"glossary"` list of
`self.data` and the `self.next_id` counter. -/
structure GlossaryDatabase where
  glossary : List Term
  next_id : Nat
deriving Repr, DecidableEq

/-- Python substring containment (`needle in haystack`) on character
lists: scan for a position where `needle` is a prefix of the remaining
list.  The empty needle is contained in every list. -/
def subSeq (needle : List Char) : List Char → Bool
  | [] => needle.isEmpty
  | c :: cs => needle.isPrefixOf (c :: cs) || subSeq needle cs

/-- Python `needle in haystack` for strings: contiguous substring test. -/
def strContains (needle haystack : String) : Bool :=
  subSeq needle.data haystack.data

/-- Python `str.lower()` as a character-wise lowering of the string's
character sequence. -/
def strLower (s : String) : String :=
  String.mk (s.data.map Char.toLower)

/-- Python truthiness of `term.get("category")`: falsy when the key is
absent (`None`) or the value is the empty string. -/
def categoryTruthy : Option String → Bool
  | none => false
  | some c => !c.isEmpty

namespace GlossaryDatabase

/-- `_save_data` (`main_app.py` lines 65-68): rewrites the backing
document; modelled as succeeding or raising, governed by `saveOk`. -/
def _save_data (saveOk : Bool) : Except StorageError Unit :=
  if saveOk then .ok () else .error .writeFailed

/-- `_get_next_id` (`main_app.py` lines 70-74): `1` on an empty
collection, else `max(term["id"] for term in glossary) + 1`. -/
def _get_next_id (glossary : List Term) : Nat :=
  match glossary.map (fun t => t.id) with
  | [] => 1
  | i :: is => is.foldl Nat.max i + 1

/-- `get_all` (`main_app.py` lines 76-78): the whole collection. -/
def get_all (db : GlossaryDatabase) : List Term :=
  db.glossary

/-- `get_by_id` (`main_app.py` lines 80-85): first record with matching
id, else `None`. -/
def get_by_id (db : GlossaryDatabase) (term_id : Nat) : Option Term :=
  db.glossary.find? (fun t => t.id == term_id)

/-- `search` (`main_app.py` lines 87-96): keep, in collection order, the
terms whose lowered title or definition contains the lowered keyword, or
whose category is truthy and contains it. -/
def search (db : GlossaryDatabase) (keyword : String) : List Term :=
  let keyword_lower := strLower keyword
  db.glossary.filter (fun term =>
    strContains keyword_lower (strLower term.title) ||
    strContains keyword_lower (strLower term.definition) ||
    (categoryTruthy term.category &&
      strContains keyword_lower (strLower (term.category.getD ""))))

end GlossaryDatabase

/-- The validated pydantic `GlossaryTermCreate` body (`main_app.py`
lines 12-22): `title` and `definition` required, `category` already
defaulted by the model, the optional fields possibly `None`. -/
structure GlossaryTermCreate where
  title : String
  definition : String
  category : String
  examples : Option (List String)
  related_terms : Option (List String)
  source : Option String
deriving Repr, DecidableEq

/-- Pydantic validation of a create body: `category` carries
`Field(default="General")`, so an omitted category becomes `"General"`
(`main_app.py` line 15). -/
def mkGlossaryTermCreate (title definition : String)
    (category : Option String) (examples related_terms : Option (List String))
    (source : Option String) : GlossaryTermCreate :=
  { title := title
    definition := definition
    category := category.getD "General"
    examples := examples
    related_terms := related_terms
    source := source }

/-- Tri-state of a pydantic `GlossaryTermUpdate` field under
`model_dump(exclude_unset=True)`: not provided, provided as `null`, or
provided with a value. -/
inductive UpdField (α : Type) where
  | unset
  | null
  | set (a : α)
deriving Repr, DecidableEq

/-- The pydantic `GlossaryTermUpdate` body (`main_app.py` lines 25-31):
every field optional and tri-state. -/
structure GlossaryTermUpdate where
  title : UpdField String
  definition : UpdField String
  category : UpdField String
  examples : UpdField (List String)
  related_terms : UpdField (List String)
  source : UpdField String
deriving Repr, DecidableEq

/-- The update with no field provided at all. -/
def emptyUpdate : GlossaryTermUpdate :=
  { title := .unset, definition := .unset, category := .unset
    examples := .unset, related_terms := .unset, source := .unset }

/-- The body of the `update` loop (`main_app.py` lines 122-124) for one
field: `term[key] = value` exactly when the field was provided and is not
`None`. -/
def applyUpd {α : Type} (f : UpdField α) (old : α) : α :=
  match f with
  | .set a => a
  | _ => old

/-- The in-place mutation `update` performs on the found record
(`main_app.py` lines 121-126): overwrite each provided non-null field,
then refresh `updated_at`. -/
def applyUpdate (u : GlossaryTermUpdate) (now : Nat) (t : Term) : Term :=
  { t with
    title := applyUpd u.title t.title
    definition := applyUpd u.definition t.definition
    category := match u.category with
      | .set v => some v
      | _ => t.category
    examples := applyUpd u.examples t.examples
    related_terms := applyUpd u.related_terms t.related_terms
    source := applyUpd u.source t.source
    updated_at := now }

/-- Replace the first record with the given id (the `get_by_id` alias is
mutated in place, which rewrites that element of the list). -/
def replaceFirst (f : Term → Term) (term_id : Nat) : List Term → List Term
  | [] => []
  | t :: ts =>
    if t.id == term_id then f t :: ts
    else t :: replaceFirst f term_id ts

/-- Remove the first record with the given id (the `pop(i)` of `delete`,
`main_app.py` line 133); `none` when no record matches. -/
def removeFirstById (term_id : Nat) : List Term → Option (List Term)
  | [] => none
  | t :: ts =>
    if t.id == term_id then some ts
    else (removeFirstById term_id ts).map (fun r => t :: r)

namespace GlossaryDatabase

/-- The `new_term` dict of `create` (`main_app.py` lines 100-110): the
counter id, the request fields with normalized optional fields, and the
current instant for both timestamps. -/
def new_term (db : GlossaryDatabase) (term_data : GlossaryTermCreate)
    (now : Nat) : Term :=
  { id := db.next_id
    title := term_data.title
    definition := term_data.definition
    category := some term_data.category
    examples := term_data.examples.getD []
    related_terms := term_data.related_terms.getD []
    source := term_data.source.getD ""
    created_at := now
    updated_at := now }

/-- `create` (`main_app.py` lines 98-114): append `new_term`, bump the
counter, persist, return the record.  The in-memory mutation happens
before `_save_data`, so on a write failure the state is already mutated
and the exception propagates. -/
def create (db : GlossaryDatabase) (term_data : GlossaryTermCreate)
    (now : Nat) (saveOk : Bool) :
    GlossaryDatabase × Except StorageError Term :=
  let db' : GlossaryDatabase :=
    { glossary := db.glossary ++ [db.new_term term_data now]
      next_id := db.next_id + 1 }
  match _save_data saveOk with
  | .error e => (db', .error e)
  | .ok _ => (db', .ok (db.new_term term_data now))

/-- `update` (`main_app.py` lines 116-128): `None` result when the id is
absent (no save attempted); otherwise mutate the found record in place,
persist, return it. -/
def update (db : GlossaryDatabase) (term_id : Nat) (term_data : GlossaryTermUpdate)
    (now : Nat) (saveOk : Bool) :
    GlossaryDatabase × Except StorageError (Option Term) :=
  match db.get_by_id term_id with
  | none => (db, .ok none)
  | some term =>
    let term' := applyUpdate term_data now term
    let db' : GlossaryDatabase :=
      { glossary := replaceFirst (fun _ => term') term_id db.glossary
        next_id := db.next_id }
    match _save_data saveOk with
    | .error e => (db', .error e)
    | .ok _ => (db', .ok (some term'))

/-- `delete` (`main_app.py` lines 130-136): pop the first record with the
id, persist and return `True`; return `False` (no save) when absent. -/
def delete (db : GlossaryDatabase) (term_id : Nat) (saveOk : Bool) :
    GlossaryDatabase × Except StorageError Bool :=
  match removeFirstById term_id db.glossary with
  | none => (db, .ok false)
  | some rest =>
    let db' : GlossaryDatabase := { glossary := rest, next_id := db.next_id }
    match _save_data saveOk with
    | .error e => (db', .error e)
    | .ok _ => (db', .ok true)

end GlossaryDatabase

/-! ### The persisted JSON document -/

/-- A JSON value, as written and read by `json.dump` / `json.load` with
`ensure_ascii=False` (strings stay Unicode).  Numbers only occur here as
the `id` integer and the abstract timestamp instants. -/
inductive Json where
  | null
  | str (s : String)
  | num (n : Nat)
  | arr (elems : List Json)
  | obj (fields : List (String × Json))

/-- Look up a key in a JSON object's field list (Python dict access). -/
def lookupField (key : String) : List (String × Json) → Option Json
  | [] => none
  | (k, v) :: rest => if k == key then some v else lookupField key rest

/-- Read a JSON value as a string. -/
def Json.asStr : Json → Option String
  | .str s => some s
  | _ => none

/-- Read a JSON value as a number. -/
def Json.asNum : Json → Option Nat
  | .num n => some n
  | _ => none

/-- Parse every element of a list, failing if any element fails. -/
def optionMapList {α β : Type} (f : α → Option β) : List α → Option (List β)
  | [] => some []
  | a :: as => (f a).bind fun b => (optionMapList f as).map (fun bs => b :: bs)

/-- Read a JSON value as a list of strings. -/
def Json.asStrList : Json → Option (List String)
  | .arr es => optionMapList Json.asStr es
  | _ => none

/-- Serialize one term record to its JSON object, with the exact keys
`create` writes (`main_app.py` lines 100-110); an absent `category`
stays absent, since `json.dump` writes the dict's keys as they are. -/
def termToJson (t : Term) : Json :=
  .obj ((("id", Json.num t.id) ::
    ("title", Json.str t.title) ::
    ("definition", Json.str t.definition) ::
    (match t.category with
     | some c => [("category", Json.str c)]
     | none => [])) ++
    [("examples", Json.arr (t.examples.map Json.str)),
     ("related_terms", Json.arr (t.related_terms.map Json.str)),
     ("source", Json.str t.source),
     ("created_at", Json.num t.created_at),
     ("updated_at", Json.num t.updated_at)])

/-- Read one term record back from its JSON object; `none` when a
required key is missing or has the wrong shape. -/
def termFromJson : Json → Option Term
  | .obj fields => do
    let id ← (lookupField "id" fields).bind Json.asNum
    let title ← (lookupField "title" fields).bind Json.asStr
    let definition ← (lookupField "definition" fields).bind Json.asStr
    let category ← match lookupField "category" fields with
      | none => some none
      | some j => (Json.asStr j).map some
    let examples ← (lookupField "examples" fields).bind Json.asStrList
    let related_terms ← (lookupField "related_terms" fields).bind Json.asStrList
    let source ← (lookupField "source" fields).bind Json.asStr
    let created_at ← (lookupField "created_at" fields).bind Json.asNum
    let updated_at ← (lookupField "updated_at" fields).bind Json.asNum
    pure { id := id, title := title, definition := definition
           category := category, examples := examples
           related_terms := related_terms, source := source
           created_at := created_at, updated_at := updated_at }
  | _ => none

/-- Serialize the whole store state, the `self.data` document
`{"glossary": [...]}` that `_save_data` writes (`main_app.py`
lines 65-68). -/
def dataToJson (glossary : List Term) : Json :=
  .obj [("glossary", .arr (glossary.map termToJson))]

/-- Parse the backing document into the expected structure: an object
with a `"glossary"` list of term records. -/
def dataFromJson : Json → Option (List Term)
  | .obj fields =>
    match lookupField "glossary" fields with
    | some (.arr es) => optionMapList termFromJson es
    | _ => none
  | _ => none

namespace GlossaryDatabase

/-- `__init__` with `_load_data` (`main_app.py` lines 53-63, 70-74): a
missing file yields the empty collection; an existing file must parse as
the expected structure, else the error propagates (StorageUnavailable);
`next_id` is recomputed from the loaded contents. -/
def init (file : Option Json) : Except StorageError GlossaryDatabase :=
  match file with
  | none => .ok { glossary := [], next_id := _get_next_id [] }
  | some doc =>
    match dataFromJson doc with
    | none => .error .unavailable
    | some g => .ok { glossary := g, next_id := _get_next_id g }

end GlossaryDatabase

/-! ### Request handler layer: pagination -/

/-- The `data` payload of the list endpoint's response envelope
(`main_app.py` lines 190-195). -/
structure PageData where
  total : Nat
  skip : Nat
  limit : Nat
  items : List Term
deriving Repr, DecidableEq

/-- `get_all_terms` (`main_app.py` lines 182-196): slice
`all_terms[skip : skip + limit]` and report the total count with the
applied parameters. -/
def get_all_terms (db : GlossaryDatabase) (skip limit : Nat) : PageData :=
  let all_terms := db.get_all
  let paginated_terms := (all_terms.drop skip).take limit
  { total := all_terms.length
    skip := skip
    limit := limit
    items := paginated_terms }

/-! ### Specification-side predicates and invariants -/

/-- Modelled from the spec's words, for comparison with `search`: a
record matches a keyword when its title, definition, or category contains
the keyword as a case-insensitive substring; a record whose category is
absent never matches on category. -/
def searchMatchesSpec (keyword : String) (t : Term) : Prop :=
  strContains (strLower keyword) (strLower t.title) = true ∨
  strContains (strLower keyword) (strLower t.definition) = true ∨
  ∃ c, t.category = some c ∧
    strContains (strLower keyword) (strLower c) = true

/-- The ids present in a collection, in order. -/
def idsOf (l : List Term) : List Nat :=
  l.map Term.id

/-- Allocation invariant: every id in the live collection is below the
counter. -/
def IdBound (db : GlossaryDatabase) : Prop :=
  ∀ t ∈ db.glossary, t.id < db.next_id

/-- One mutating request against the store, with its instant and the
outcome of its persistence write. -/
inductive StoreOp where
  | createOp (term_data : GlossaryTermCreate) (now : Nat) (saveOk : Bool)
  | updateOp (term_id : Nat) (term_data : GlossaryTermUpdate) (now : Nat) (saveOk : Bool)
  | deleteOp (term_id : Nat) (saveOk : Bool)

/-- Execute one mutating request; the second component lists the ids
issued to the caller (the id of a record returned by a successful
`create`). -/
def stepOp (db : GlossaryDatabase) : StoreOp → GlossaryDatabase × List Nat
  | .createOp term_data now saveOk =>
    match db.create term_data now saveOk with
    | (db', .ok t) => (db', [t.id])
    | (db', .error _) => (db', [])
  | .updateOp term_id term_data now saveOk =>
    ((db.update term_id term_data now saveOk).1, [])
  | .deleteOp term_id saveOk =>
    ((db.delete term_id saveOk).1, [])

/-- Execute a sequence of mutating requests within one process lifetime,
collecting every issued id in order. -/
def runOps (db : GlossaryDatabase) : List StoreOp → GlossaryDatabase × List Nat
  | [] => (db, [])
  | op :: ops =>
    let r := stepOp db op
    let r' := runOps r.1 ops
    (r'.1, r.2 ++ r'.2)

/-! ### Sample data for concrete instantiations -/

/-- A concrete record used to instantiate hypotheses on concrete
stores. -/
def sampleTerm : Term :=
  { id := 1
    title := "Oracle"
    definition := "A service that feeds external data to a blockchain"
    category := some "Infrastructure"
    examples := []
    related_terms := []
    source := ""
    created_at := 5
    updated_at := 5 }

/-- A concrete one-record store. -/
def sampleDb : GlossaryDatabase :=
  { glossary := [sampleTerm], next_id := 2 }

/-- A concrete create body. -/
def sampleCreate : GlossaryTermCreate :=
  { title := "Блокчейн"
    definition := "Распределённый реестр данных"
    category := "General"
    examples := none
    related_terms := none
    source := none }

/-- A concrete record with non-ASCII text content. -/
def sampleTermRu : Term :=
  { id := 3
    title := "Блокчейн"
    definition := "Распределённый реестр данных"
    category := some "Инфраструктура"
    examples := ["пример"]
    related_terms := []
    source := "лекция"
    created_at := 9
    updated_at := 9 }

/-- The update that provides every field explicitly as `null`. -/
def nullUpdate : GlossaryTermUpdate :=
  { title := .null, definition := .null, category := .null
    examples := .null, related_terms := .null, source := .null }

/-! ### Helper lemmas -/

theorem subSeq_nil_needle (l : List Char) : subSeq [] l = true := by
  cases l with
  | nil => rfl
  | cons c cs => simp [subSeq, List.isPrefixOf]

theorem subSeq_nil_haystack (n : List Char) (h : subSeq n [] = true) : n = [] := by
  simpa [subSeq, List.isEmpty_iff] using h

theorem le_foldl_max_init (is : List Nat) (i : Nat) : i ≤ is.foldl Nat.max i := by
  induction is generalizing i with
  | nil => exact Nat.le_refl i
  | cons a as ih => exact Nat.le_trans (Nat.le_max_left i a) (ih (Nat.max i a))

theorem le_foldl_max_of_mem (is : List Nat) (i x : Nat) (hx : x ∈ is) :
    x ≤ is.foldl Nat.max i := by
  induction is generalizing i with
  | nil => cases hx
  | cons a as ih =>
    cases List.mem_cons.mp hx with
    | inl h => subst h; exact Nat.le_trans (Nat.le_max_right i x) (le_foldl_max_init as _)
    | inr h => exact ih (Nat.max i a) h

theorem foldl_max_eq_or_mem (is : List Nat) (i : Nat) :
    is.foldl Nat.max i = i ∨ is.foldl Nat.max i ∈ is := by
  induction is generalizing i with
  | nil => exact Or.inl rfl
  | cons a as ih =>
    rw [List.foldl_cons]
    rcases ih (Nat.max i a) with h | h
    · rw [h]
      rcases Nat.le_total i a with hle | hle
      · exact Or.inr (by simp [Nat.max_eq_right hle])
      · exact Or.inl (Nat.max_eq_left hle)
    · exact Or.inr (List.mem_cons_of_mem a h)

theorem _get_next_id_gt (g : List Term) (t : Term) (ht : t ∈ g) :
    t.id < GlossaryDatabase._get_next_id g := by
  unfold GlossaryDatabase._get_next_id
  have hmem : t.id ∈ g.map Term.id := List.mem_map_of_mem Term.id ht
  cases hg : g.map Term.id with
  | nil => rw [hg] at hmem; cases hmem
  | cons i is =>
    rw [hg] at hmem
    cases List.mem_cons.mp hmem with
    | inl h => subst h; exact Nat.lt_succ_of_le (le_foldl_max_init is _)
    | inr h => exact Nat.lt_succ_of_le (le_foldl_max_of_mem is i _ h)

theorem _get_next_id_max (g : List Term) (hg : g ≠ []) :
    ∃ m ∈ g.map Term.id, (∀ x ∈ g.map Term.id, x ≤ m) ∧
      GlossaryDatabase._get_next_id g = m + 1 := by
  unfold GlossaryDatabase._get_next_id
  cases h : g.map Term.id with
  | nil => exact absurd (List.map_eq_nil_iff.mp h) hg
  | cons i is =>
    refine ⟨is.foldl Nat.max i, ?_, ?_, rfl⟩
    · rcases foldl_max_eq_or_mem is i with he | he
      · rw [he]; exact List.mem_cons_self i is
      · exact List.mem_cons_of_mem i he
    · intro x hx
      cases List.mem_cons.mp hx with
      | inl hxi => subst hxi; exact le_foldl_max_init is x
      | inr hxi => exact le_foldl_max_of_mem is i x hxi

theorem mem_replaceFirst (f : Term → Term) (i : Nat) (l : List Term) (t' : Term)
    (h : t' ∈ replaceFirst f i l) :
    t' ∈ l ∨ ∃ t ∈ l, t.id = i ∧ t' = f t := by
  induction l with
  | nil => cases h
  | cons a as ih =>
    by_cases ha : a.id = i
    · rw [replaceFirst, if_pos (by simpa using ha)] at h
      cases List.mem_cons.mp h with
      | inl he => exact Or.inr ⟨a, List.mem_cons_self a as, ha, he⟩
      | inr hm => exact Or.inl (List.mem_cons_of_mem a hm)
    · rw [replaceFirst, if_neg (by simpa using ha)] at h
      cases List.mem_cons.mp h with
      | inl he => exact Or.inl (he ▸ List.mem_cons_self a as)
      | inr hm =>
        rcases ih hm with hl | ⟨t, htl, hti, hte⟩
        · exact Or.inl (List.mem_cons_of_mem a hl)
        · exact Or.inr ⟨t, List.mem_cons_of_mem a htl, hti, hte⟩

theorem mem_replaceFirst_of_ne (f : Term → Term) (i : Nat) (l : List Term) (s : Term)
    (hs : s ∈ l) (hne : s.id ≠ i) : s ∈ replaceFirst f i l := by
  induction l with
  | nil => cases hs
  | cons a as ih =>
    by_cases ha : a.id = i
    · rw [replaceFirst, if_pos (by simpa using ha)]
      cases List.mem_cons.mp hs with
      | inl he => exact absurd (he ▸ ha) hne
      | inr hm => exact List.mem_cons_of_mem _ hm
    · rw [replaceFirst, if_neg (by simpa using ha)]
      cases List.mem_cons.mp hs with
      | inl he => exact he ▸ List.mem_cons_self a _
      | inr hm => exact List.mem_cons_of_mem a (ih hm)

theorem replaceFirst_map_id (i : Nat) (l : List Term) (t t' : Term)
    (hfind : l.find? (fun s => s.id == i) = some t) (hid : t'.id = t.id) :
    (replaceFirst (fun _ => t') i l).map Term.id = l.map Term.id := by
  induction l with
  | nil => cases hfind
  | cons a as ih =>
    by_cases ha : a.id = i
    · rw [List.find?_cons_of_pos _ (by simpa using ha)] at hfind
      cases hfind
      rw [replaceFirst, if_pos (by simpa using ha)]
      simp [hid]
    · rw [List.find?_cons_of_neg _ (by simpa using ha)] at hfind
      rw [replaceFirst, if_neg (by simpa using ha)]
      simp [ih hfind]

theorem removeFirstById_sublist (i : Nat) (l r : List Term)
    (h : removeFirstById i l = some r) : r.Sublist l := by
  induction l generalizing r with
  | nil => cases h
  | cons a as ih =>
    by_cases ha : a.id = i
    · rw [removeFirstById, if_pos (by simpa using ha)] at h
      cases h
      exact List.sublist_cons_self a as
    · rw [removeFirstById, if_neg (by simpa using ha)] at h
      cases hr : removeFirstById i as with
      | none => rw [hr] at h; cases h
      | some r' =>
        rw [hr] at h
        cases h
        exact List.Sublist.cons₂ a (ih r' hr)

theorem removeFirstById_eq_none_iff (i : Nat) (l : List Term) :
    removeFirstById i l = none ↔ ∀ t ∈ l, t.id ≠ i := by
  induction l with
  | nil => simp [removeFirstById]
  | cons a as ih =>
    by_cases ha : a.id = i
    · rw [removeFirstById, if_pos (by simpa using ha)]
      simp [ha]
    · rw [removeFirstById, if_neg (by simpa using ha)]
      simp [ha, Option.map_eq_none, ih]

theorem removeFirstById_length (i : Nat) (l r : List Term)
    (h : removeFirstById i l = some r) : r.length + 1 = l.length := by
  induction l generalizing r with
  | nil => cases h
  | cons a as ih =>
    by_cases ha : a.id = i
    · rw [removeFirstById, if_pos (by simpa using ha)] at h
      cases h
      rfl
    · rw [removeFirstById, if_neg (by simpa using ha)] at h
      cases hr : removeFirstById i as with
      | none => rw [hr] at h; cases h
      | some r' =>
        rw [hr] at h
        cases h
        simpa using ih r' hr

theorem removeFirstById_of_nodup (i : Nat) (l r : List Term)
    (hnd : (l.map Term.id).Nodup) (h : removeFirstById i l = some r) :
    r = l.filter (fun s => !(s.id == i)) := by
  induction l generalizing r with
  | nil => cases h
  | cons a as ih =>
    have hnd' : (as.map Term.id).Nodup := (List.nodup_cons.mp (by simpa using hnd)).2
    by_cases ha : a.id = i
    · rw [removeFirstById, if_pos (by simpa using ha)] at h
      cases h
      have hnotin : a.id ∉ as.map Term.id := (List.nodup_cons.mp (by simpa using hnd)).1
      have hall : ∀ s ∈ as, (!(s.id == i)) = true := by
        intro s hsm
        have hne : s.id ≠ i := by
          intro he
          have : a.id ∈ as.map Term.id := by
            rw [ha, ← he]
            exact List.mem_map_of_mem Term.id hsm
          exact hnotin this
        simpa using hne
      rw [List.filter_cons, if_neg (by simpa using ha)]
      exact (List.filter_eq_self.mpr hall).symm
    · rw [removeFirstById, if_neg (by simpa using ha)] at h
      cases hr : removeFirstById i as with
      | none => rw [hr] at h; cases h
      | some r' =>
        rw [hr] at h
        cases h
        rw [List.filter_cons, if_pos (by simpa using ha)]
        rw [ih r' hnd' hr]

theorem get_by_id_mem (db : GlossaryDatabase) (i : Nat) (t : Term)
    (h : db.get_by_id i = some t) : t ∈ db.glossary ∧ t.id = i :=
  ⟨List.mem_of_find?_eq_some h, by simpa using List.find?_some h⟩

theorem get_by_id_eq_none (db : GlossaryDatabase) (i : Nat)
    (h : ∀ t ∈ db.glossary, t.id ≠ i) : db.get_by_id i = none := by
  apply List.find?_eq_none.mpr
  intro t ht
  simpa using h t ht

theorem create_fst (db : GlossaryDatabase) (td : GlossaryTermCreate)
    (now : Nat) (saveOk : Bool) :
    (db.create td now saveOk).1 =
      { glossary := db.glossary ++ [db.new_term td now]
        next_id := db.next_id + 1 } := by
  cases saveOk <;> rfl

theorem create_snd_ok (db : GlossaryDatabase) (td : GlossaryTermCreate) (now : Nat) :
    (db.create td now true).2 = .ok (db.new_term td now) := rfl

theorem create_snd_fail (db : GlossaryDatabase) (td : GlossaryTermCreate) (now : Nat) :
    (db.create td now false).2 = .error .writeFailed := rfl

theorem update_not_found (db : GlossaryDatabase) (i : Nat) (u : GlossaryTermUpdate)
    (now : Nat) (saveOk : Bool) (h : db.get_by_id i = none) :
    db.update i u now saveOk = (db, .ok none) := by
  unfold GlossaryDatabase.update
  rw [h]

theorem update_found_fst (db : GlossaryDatabase) (i : Nat) (u : GlossaryTermUpdate)
    (now : Nat) (saveOk : Bool) (t : Term) (h : db.get_by_id i = some t) :
    (db.update i u now saveOk).1 =
      { glossary := replaceFirst (fun _ => applyUpdate u now t) i db.glossary
        next_id := db.next_id } := by
  unfold GlossaryDatabase.update
  rw [h]
  cases saveOk <;> rfl

theorem update_found_snd_ok (db : GlossaryDatabase) (i : Nat) (u : GlossaryTermUpdate)
    (now : Nat) (t : Term) (h : db.get_by_id i = some t) :
    (db.update i u now true).2 = .ok (some (applyUpdate u now t)) := by
  unfold GlossaryDatabase.update
  rw [h]
  rfl

theorem update_found_snd_fail (db : GlossaryDatabase) (i : Nat) (u : GlossaryTermUpdate)
    (now : Nat) (t : Term) (h : db.get_by_id i = some t) :
    (db.update i u now false).2 = .error .writeFailed := by
  unfold GlossaryDatabase.update
  rw [h]
  rfl

theorem delete_not_found (db : GlossaryDatabase) (i : Nat) (saveOk : Bool)
    (h : removeFirstById i db.glossary = none) :
    db.delete i saveOk = (db, .ok false) := by
  unfold GlossaryDatabase.delete
  rw [h]

theorem delete_found_fst (db : GlossaryDatabase) (i : Nat) (saveOk : Bool)
    (r : List Term) (h : removeFirstById i db.glossary = some r) :
    (db.delete i saveOk).1 = { glossary := r, next_id := db.next_id } := by
  unfold GlossaryDatabase.delete
  rw [h]
  cases saveOk <;> rfl

theorem delete_found_snd_ok (db : GlossaryDatabase) (i : Nat)
    (r : List Term) (h : removeFirstById i db.glossary = some r) :
    (db.delete i true).2 = .ok true := by
  unfold GlossaryDatabase.delete
  rw [h]
  rfl

theorem delete_found_snd_fail (db : GlossaryDatabase) (i : Nat)
    (r : List Term) (h : removeFirstById i db.glossary = some r) :
    (db.delete i false).2 = .error .writeFailed := by
  unfold GlossaryDatabase.delete
  rw [h]
  rfl


theorem applyUpdate_id (u : GlossaryTermUpdate) (now : Nat) (t : Term) :
    (applyUpdate u now t).id = t.id := rfl

theorem applyUpdate_created_at (u : GlossaryTermUpdate) (now : Nat) (t : Term) :
    (applyUpdate u now t).created_at = t.created_at := rfl

theorem applyUpdate_updated_at (u : GlossaryTermUpdate) (now : Nat) (t : Term) :
    (applyUpdate u now t).updated_at = now := rfl

theorem stepOp_spec (db : GlossaryDatabase) (op : StoreOp) (hb : IdBound db) :
    IdBound (stepOp db op).1 ∧
    db.next_id ≤ (stepOp db op).1.next_id ∧
    (∀ x ∈ (stepOp db op).2, db.next_id ≤ x ∧ x < (stepOp db op).1.next_id) ∧
    List.Pairwise (· < ·) (stepOp db op).2 := by
  cases op with
  | createOp td now ok =>
    have hbound : IdBound
        { glossary := db.glossary ++ [db.new_term td now], next_id := db.next_id + 1 } := by
      intro s hs
      rcases List.mem_append.mp hs with h | h
      · exact Nat.lt_succ_of_lt (hb s h)
      · rcases List.mem_singleton.mp h with rfl
        exact Nat.lt_succ_self _
    cases ok with
    | true =>
      refine ⟨hbound, Nat.le_succ _, ?_, ?_⟩
      · intro x hx
        rcases List.mem_singleton.mp hx with rfl
        exact ⟨Nat.le_refl _, Nat.lt_succ_self _⟩
      · exact List.pairwise_singleton _ _
    | false =>
      exact ⟨hbound, Nat.le_succ _, (by intro x hx; cases hx), List.Pairwise.nil⟩
  | updateOp i u now ok =>
    cases hfind : db.get_by_id i with
    | none =>
      rw [show stepOp db (.updateOp i u now ok) = ((db.update i u now ok).1, []) from rfl,
        update_not_found db i u now ok hfind]
      exact ⟨hb, Nat.le_refl _, (by intro x hx; cases hx), List.Pairwise.nil⟩
    | some t =>
      have ht := get_by_id_mem db i t hfind
      rw [show stepOp db (.updateOp i u now ok) = ((db.update i u now ok).1, []) from rfl,
        update_found_fst db i u now ok t hfind]
      refine ⟨?_, Nat.le_refl _, (by intro x hx; cases hx), List.Pairwise.nil⟩
      intro s hs
      rcases mem_replaceFirst _ _ _ _ hs with h | ⟨t₀, ht₀, _, rfl⟩
      · exact hb s h
      · rw [applyUpdate_id]
        exact hb t ht.1
  | deleteOp i ok =>
    cases hrem : removeFirstById i db.glossary with
    | none =>
      rw [show stepOp db (.deleteOp i ok) = ((db.delete i ok).1, []) from rfl,
        delete_not_found db i ok hrem]
      exact ⟨hb, Nat.le_refl _, (by intro x hx; cases hx), List.Pairwise.nil⟩
    | some r =>
      rw [show stepOp db (.deleteOp i ok) = ((db.delete i ok).1, []) from rfl,
        delete_found_fst db i ok r hrem]
      refine ⟨?_, Nat.le_refl _, (by intro x hx; cases hx), List.Pairwise.nil⟩
      intro s hs
      exact hb s ((removeFirstById_sublist i db.glossary r hrem).mem hs)

theorem stepOp_nodup (db : GlossaryDatabase) (op : StoreOp) (hb : IdBound db)
    (hnd : (idsOf db.glossary).Nodup) : (idsOf (stepOp db op).1.glossary).Nodup := by
  cases op with
  | createOp td now ok =>
    have hgoal : (idsOf (db.glossary ++ [db.new_term td now])).Nodup := by
      rw [idsOf, List.map_append]
      rw [List.nodup_append]
      refine ⟨hnd, List.nodup_singleton _, ?_⟩
      intro x hx hx'
      rcases List.mem_singleton.mp hx' with rfl
      rcases List.mem_map.mp hx with ⟨t, htmem, hteq⟩
      have hlt := hb t htmem
      rw [hteq] at hlt
      exact Nat.lt_irrefl _ hlt
    cases ok with
    | true => exact hgoal
    | false => exact hgoal
  | updateOp i u now ok =>
    cases hfind : db.get_by_id i with
    | none =>
      rw [show (stepOp db (.updateOp i u now ok)).1 = (db.update i u now ok).1 from rfl,
        update_not_found db i u now ok hfind]
      exact hnd
    | some t =>
      rw [show (stepOp db (.updateOp i u now ok)).1 = (db.update i u now ok).1 from rfl,
        update_found_fst db i u now ok t hfind]
      show (idsOf (replaceFirst _ i db.glossary)).Nodup
      rw [idsOf, replaceFirst_map_id i db.glossary t (applyUpdate u now t)
        hfind (applyUpdate_id u now t)]
      exact hnd
  | deleteOp i ok =>
    cases hrem : removeFirstById i db.glossary with
    | none =>
      rw [show (stepOp db (.deleteOp i ok)).1 = (db.delete i ok).1 from rfl,
        delete_not_found db i ok hrem]
      exact hnd
    | some r =>
      rw [show (stepOp db (.deleteOp i ok)).1 = (db.delete i ok).1 from rfl,
        delete_found_fst db i ok r hrem]
      exact List.Nodup.sublist
        (List.Sublist.map Term.id (removeFirstById_sublist i db.glossary r hrem)) hnd

theorem runOps_spec (ops : List StoreOp) : ∀ db : GlossaryDatabase, IdBound db →
    IdBound (runOps db ops).1 ∧
    db.next_id ≤ (runOps db ops).1.next_id ∧
    (∀ x ∈ (runOps db ops).2, db.next_id ≤ x ∧ x < (runOps db ops).1.next_id) ∧
    List.Pairwise (· < ·) (runOps db ops).2 := by
  induction ops with
  | nil =>
    intro db hb
    exact ⟨hb, Nat.le_refl _, (by intro x hx; cases hx), List.Pairwise.nil⟩
  | cons op ops ih =>
    intro db hb
    obtain ⟨hb1, hmono1, hiss1, hpw1⟩ := stepOp_spec db op hb
    obtain ⟨hb2, hmono2, hiss2, hpw2⟩ := ih (stepOp db op).1 hb1
    have hshape : runOps db (op :: ops) =
        ((runOps (stepOp db op).1 ops).1,
          (stepOp db op).2 ++ (runOps (stepOp db op).1 ops).2) := rfl
    rw [hshape]
    refine ⟨hb2, Nat.le_trans hmono1 hmono2, ?_, ?_⟩
    · intro x hx
      rcases List.mem_append.mp hx with h | h
      · exact ⟨(hiss1 x h).1, Nat.lt_of_lt_of_le (hiss1 x h).2 hmono2⟩
      · exact ⟨Nat.le_trans hmono1 (hiss2 x h).1, (hiss2 x h).2⟩
    · rw [List.pairwise_append]
      refine ⟨hpw1, hpw2, ?_⟩
      intro a ha b hb'
      exact Nat.lt_of_lt_of_le (hiss1 a ha).2 (hiss2 b hb').1

theorem runOps_nodup (ops : List StoreOp) : ∀ db : GlossaryDatabase, IdBound db →
    (idsOf db.glossary).Nodup → (idsOf (runOps db ops).1.glossary).Nodup := by
  induction ops with
  | nil => intro db _ hnd; exact hnd
  | cons op ops ih =>
    intro db hb hnd
    exact ih (stepOp db op).1 (stepOp_spec db op hb).1 (stepOp_nodup db op hb hnd)

theorem init_IdBound (file : Option Json) (db : GlossaryDatabase)
    (h : GlossaryDatabase.init file = .ok db) : IdBound db := by
  cases file with
  | none =>
    rw [GlossaryDatabase.init] at h
    cases h
    intro t ht
    cases ht
  | some doc =>
    rw [GlossaryDatabase.init] at h
    cases hp : dataFromJson doc with
    | none => rw [hp] at h; cases h
    | some g =>
      rw [hp] at h
      cases h
      intro t ht
      exact _get_next_id_gt g t ht

theorem mapM_asStr_roundtrip (xs : List String) :
    optionMapList Json.asStr (xs.map Json.str) = some xs := by
  induction xs with
  | nil => rfl
  | cons a as ih => simp [optionMapList, ih, Json.asStr]

theorem termFromJson_termToJson (t : Term) : termFromJson (termToJson t) = some t := by
  cases t with
  | mk id title definition category examples related_terms source created_at updated_at =>
    cases category with
    | none =>
      simp [termToJson, termFromJson, lookupField, Json.asStr, Json.asNum,
        Json.asStrList, mapM_asStr_roundtrip]
    | some c =>
      simp [termToJson, termFromJson, lookupField, Json.asStr, Json.asNum,
        Json.asStrList, mapM_asStr_roundtrip]

theorem mapM_termFromJson_roundtrip (g : List Term) :
    optionMapList termFromJson (g.map termToJson) = some g := by
  induction g with
  | nil => rfl
  | cons t ts ih => simp [optionMapList, termFromJson_termToJson, ih]

theorem dataFromJson_dataToJson (g : List Term) :
    dataFromJson (dataToJson g) = some g := by
  rw [dataToJson, dataFromJson]
  simp [lookupField, mapM_termFromJson_roundtrip]

theorem search_mem_iff (db : GlossaryDatabase) (kw : String) (t : Term) :
    t ∈ db.search kw ↔ t ∈ db.glossary ∧ searchMatchesSpec kw t := by
  rw [GlossaryDatabase.search, List.mem_filter]
  constructor
  · rintro ⟨hmem, hp⟩
    refine ⟨hmem, ?_⟩
    rcases Bool.or_eq_true_iff.mp hp with h | h
    · rcases Bool.or_eq_true_iff.mp h with h' | h'
      · exact Or.inl h'
      · exact Or.inr (Or.inl h')
    · rcases Bool.and_eq_true_iff.mp h with ⟨htr, hc⟩
      cases hcat : t.category with
      | none => rw [hcat] at htr; cases htr
      | some c =>
        rw [hcat] at hc
        exact Or.inr (Or.inr ⟨c, hcat, by simpa using hc⟩)
  · rintro ⟨hmem, hspec⟩
    refine ⟨hmem, ?_⟩
    rcases hspec with h | h | ⟨c, hcat, hc⟩
    · exact Bool.or_eq_true_iff.mpr (Or.inl (Bool.or_eq_true_iff.mpr (Or.inl h)))
    · exact Bool.or_eq_true_iff.mpr (Or.inl (Bool.or_eq_true_iff.mpr (Or.inr h)))
    · by_cases hce : c.isEmpty
      · have hcnil : c.data = [] := by
          rw [(String.isEmpty_iff c).mp hce]
        have hknil : (strLower kw).data = [] := by
          have := hc
          rw [strContains] at this
          have hl : (strLower c).data = [] := by
            rw [strLower]
            simp [hcnil]
          rw [hl] at this
          exact List.isEmpty_iff.mp (by simpa [subSeq] using this)
        apply Bool.or_eq_true_iff.mpr
        apply Or.inl
        apply Bool.or_eq_true_iff.mpr
        apply Or.inl
        rw [strContains, hknil]
        exact subSeq_nil_needle _
      · apply Bool.or_eq_true_iff.mpr
        apply Or.inr
        apply Bool.and_eq_true_iff.mpr
        refine ⟨?_, ?_⟩
        · rw [hcat, categoryTruthy]
          simpa using hce
        · rw [hcat]
          simpa using hc

/-! ### Claim theorems -/

/-- C1: identifier allocation is monotone: at initialization the next
assignable id is the maximum existing id plus one (or 1 when the
collection is empty); within one process lifetime the ids returned by
`create` are strictly increasing (hence each is strictly greater than
every previously issued id), and the ids in the live collection stay
pairwise distinct. -/
theorem claim_C1_id_allocation_monotone (file : Option Json)
    (db : GlossaryDatabase) (ops : List StoreOp)
    (hinit : GlossaryDatabase.init file = .ok db)
    (hnodup : (idsOf db.glossary).Nodup) :
    GlossaryDatabase._get_next_id [] = 1 ∧
    (∀ g : List Term, g ≠ [] →
      ∃ m ∈ g.map Term.id, (∀ x ∈ g.map Term.id, x ≤ m) ∧
        GlossaryDatabase._get_next_id g = m + 1) ∧
    List.Pairwise (· < ·) (runOps db ops).2 ∧
    (idsOf (runOps db ops).1.glossary).Nodup := by
  have hb := init_IdBound file db hinit
  exact ⟨rfl, _get_next_id_max, (runOps_spec ops db hb).2.2.2,
    runOps_nodup ops db hb hnodup⟩

/-- Witness for C1 at the empty store and two consecutive creates. -/
theorem claim_C1_witness :
    List.Pairwise (· < ·)
      (runOps { glossary := [], next_id := 1 }
        [.createOp sampleCreate 3 true, .createOp sampleCreate 4 true]).2 :=
  (claim_C1_id_allocation_monotone none { glossary := [], next_id := 1 }
    [.createOp sampleCreate 3 true, .createOp sampleCreate 4 true]
    rfl (by simp [idsOf])).2.2.1

/-- C2: for an existing id, `update` replaces exactly the fields provided
with a value, leaves fields absent from the partial update untouched,
refreshes `updated_at` to the current instant unconditionally, keeps `id`
and `created_at`, leaves every other record in place, and an empty
partial update changes only `updated_at`. -/
theorem claim_C2_update_partial_replacement (db : GlossaryDatabase)
    (i : Nat) (u : GlossaryTermUpdate) (now : Nat) (t : Term)
    (hfind : db.get_by_id i = some t) :
    ∃ t', (db.update i u now true).2 = .ok (some t') ∧
      (db.update i u now true).1.next_id = db.next_id ∧
      (∀ v, u.title = .set v → t'.title = v) ∧
      (u.title = .unset → t'.title = t.title) ∧
      (∀ v, u.definition = .set v → t'.definition = v) ∧
      (u.definition = .unset → t'.definition = t.definition) ∧
      (∀ v, u.category = .set v → t'.category = some v) ∧
      (u.category = .unset → t'.category = t.category) ∧
      (∀ v, u.examples = .set v → t'.examples = v) ∧
      (u.examples = .unset → t'.examples = t.examples) ∧
      (∀ v, u.related_terms = .set v → t'.related_terms = v) ∧
      (u.related_terms = .unset → t'.related_terms = t.related_terms) ∧
      (∀ v, u.source = .set v → t'.source = v) ∧
      (u.source = .unset → t'.source = t.source) ∧
      t'.id = t.id ∧ t'.created_at = t.created_at ∧ t'.updated_at = now ∧
      (u = emptyUpdate → t' = { t with updated_at := now }) ∧
      (∀ s ∈ db.glossary, s.id ≠ i → s ∈ (db.update i u now true).1.glossary) := by
  refine ⟨applyUpdate u now t, update_found_snd_ok db i u now t hfind,
    (by rw [update_found_fst db i u now true t hfind]),
    ?_, ?_, ?_, ?_, ?_, ?_, ?_, ?_, ?_, ?_, ?_, ?_, rfl, rfl, rfl, ?_, ?_⟩
  · intro v hv; simp [applyUpdate, applyUpd, hv]
  · intro hv; simp [applyUpdate, applyUpd, hv]
  · intro v hv; simp [applyUpdate, applyUpd, hv]
  · intro hv; simp [applyUpdate, applyUpd, hv]
  · intro v hv; simp [applyUpdate, hv]
  · intro hv; simp [applyUpdate, hv]
  · intro v hv; simp [applyUpdate, applyUpd, hv]
  · intro hv; simp [applyUpdate, applyUpd, hv]
  · intro v hv; simp [applyUpdate, applyUpd, hv]
  · intro hv; simp [applyUpdate, applyUpd, hv]
  · intro v hv; simp [applyUpdate, applyUpd, hv]
  · intro hv; simp [applyUpdate, applyUpd, hv]
  · intro hv; subst hv; rfl
  · intro s hsm hsne
    rw [update_found_fst db i u now true t hfind]
    exact mem_replaceFirst_of_ne _ i _ s hsm hsne

/-- Witness for C2 at the one-record store and the empty update. -/
theorem claim_C2_witness :
    ∃ t', (sampleDb.update 1 emptyUpdate 7 true).2 = .ok (some t') ∧
      t'.title = sampleTerm.title := by
  obtain ⟨t', hok, _, _, htitle, hrest⟩ :=
    claim_C2_update_partial_replacement sampleDb 1 emptyUpdate 7 sampleTerm rfl
  exact ⟨t', hok, htitle rfl⟩

/-- C3: `search` returns, in collection order, exactly the records whose
title, definition, or category contains the keyword as a
case-insensitive substring; a record whose category is absent can only
match on title or definition; when nothing matches the result is the
empty sequence. -/
theorem claim_C3_search_characterization (db : GlossaryDatabase) (kw : String) :
    (db.search kw).Sublist db.glossary ∧
    (∀ t, t ∈ db.search kw ↔ t ∈ db.glossary ∧ searchMatchesSpec kw t) ∧
    (∀ t ∈ db.glossary, t.category = none →
      (t ∈ db.search kw ↔
        strContains (strLower kw) (strLower t.title) = true ∨
        strContains (strLower kw) (strLower t.definition) = true)) ∧
    ((∀ t ∈ db.glossary, ¬ searchMatchesSpec kw t) → db.search kw = []) := by
  refine ⟨List.filter_sublist _, search_mem_iff db kw, ?_, ?_⟩
  · intro t htmem hcat
    rw [search_mem_iff db kw t]
    constructor
    · rintro ⟨_, h | h | ⟨c, hc, _⟩⟩
      · exact Or.inl h
      · exact Or.inr h
      · rw [hcat] at hc; cases hc
    · rintro (h | h)
      · exact ⟨htmem, Or.inl h⟩
      · exact ⟨htmem, Or.inr (Or.inl h)⟩
  · intro hall
    apply List.eq_nil_iff_forall_not_mem.mpr
    intro t ht
    have hm := (search_mem_iff db kw t).mp ht
    exact hall t hm.1 hm.2

/-- Witness for C3: the lowercase keyword finds the capitalized title. -/
theorem claim_C3_witness : sampleTerm ∈ sampleDb.search "oracle" :=
  ((claim_C3_search_characterization sampleDb "oracle").2.1 sampleTerm).mpr
    ⟨by decide, Or.inl (by decide)⟩

/-- C4: when the persistence write fails, `create` propagates the write
failure and never reports success, and `update`/`delete` on a present id
do the same. -/
theorem claim_C4_write_failure_propagates (db : GlossaryDatabase)
    (td : GlossaryTermCreate) (i : Nat) (u : GlossaryTermUpdate) (now : Nat) :
    (db.create td now false).2 = .error .writeFailed ∧
    (∀ res, (db.create td now false).2 ≠ .ok res) ∧
    (∀ t, db.get_by_id i = some t →
      (db.update i u now false).2 = .error .writeFailed) ∧
    ((∃ t ∈ db.glossary, t.id = i) →
      (db.delete i false).2 = .error .writeFailed) := by
  refine ⟨create_snd_fail db td now, ?_, ?_, ?_⟩
  · intro res h
    rw [create_snd_fail db td now] at h
    cases h
  · intro t hfind
    exact update_found_snd_fail db i u now t hfind
  · rintro ⟨t, htm, hid⟩
    cases hrem : removeFirstById i db.glossary with
    | none => exact absurd hid ((removeFirstById_eq_none_iff i db.glossary).mp hrem t htm)
    | some r => exact delete_found_snd_fail db i r hrem

/-- Witness for C4 on the one-record store. -/
theorem claim_C4_witness :
    (sampleDb.delete 1 false).2 = .error .writeFailed :=
  (claim_C4_write_failure_propagates sampleDb sampleCreate 1 emptyUpdate 7).2.2.2
    ⟨sampleTerm, by decide, rfl⟩

/-- C5: `create` stamps both timestamps with the current instant;
`update` refreshes `updated_at` and preserves `created_at` of every
record; `delete` keeps surviving records untouched; and when the clock
never runs behind the existing records, every record keeps
`created_at ≤ updated_at` across all three mutations. -/
theorem claim_C5_timestamp_invariants (db : GlossaryDatabase)
    (td : GlossaryTermCreate) (i : Nat) (u : GlossaryTermUpdate)
    (now : Nat) (ok : Bool)
    (hts : ∀ t ∈ db.glossary, t.created_at ≤ t.updated_at)
    (hclock : ∀ t ∈ db.glossary, t.created_at ≤ now) :
    (∀ t, (db.create td now ok).2 = .ok t →
      t.created_at = now ∧ t.updated_at = now) ∧
    (∀ t', (db.update i u now ok).2 = .ok (some t') → t'.updated_at = now) ∧
    (∀ t' ∈ (db.update i u now ok).1.glossary,
      ∃ t ∈ db.glossary, t'.id = t.id ∧ t'.created_at = t.created_at) ∧
    (∀ t' ∈ (db.delete i ok).1.glossary, t' ∈ db.glossary) ∧
    (∀ t' ∈ (db.create td now ok).1.glossary, t'.created_at ≤ t'.updated_at) ∧
    (∀ t' ∈ (db.update i u now ok).1.glossary, t'.created_at ≤ t'.updated_at) ∧
    (∀ t' ∈ (db.delete i ok).1.glossary, t'.created_at ≤ t'.updated_at) := by
  refine ⟨?_, ?_, ?_, ?_, ?_, ?_, ?_⟩
  · intro t h
    cases ok with
    | false => rw [create_snd_fail db td now] at h; cases h
    | true =>
      rw [create_snd_ok db td now] at h
      injection h with h'
      subst h'
      exact ⟨rfl, rfl⟩
  · intro t' h
    cases hfind : db.get_by_id i with
    | none =>
      rw [show (db.update i u now ok).2 = (db, Except.ok none).2 from
        congrArg Prod.snd (update_not_found db i u now ok hfind)] at h
      injection h with h'
      cases h'
    | some t =>
      cases ok with
      | false =>
        rw [update_found_snd_fail db i u now t hfind] at h
        cases h
      | true =>
        rw [update_found_snd_ok db i u now t hfind] at h
        injection h with h'
        injection h' with h''
        subst h''
        exact applyUpdate_updated_at u now t
  · intro t' ht'
    cases hfind : db.get_by_id i with
    | none =>
      rw [show (db.update i u now ok).1 = db from
        congrArg Prod.fst (update_not_found db i u now ok hfind)] at ht'
      exact ⟨t', ht', rfl, rfl⟩
    | some t =>
      rw [update_found_fst db i u now ok t hfind] at ht'
      rcases mem_replaceFirst _ _ _ _ ht' with h | ⟨t₀, ht₀, _, rfl⟩
      · exact ⟨t', h, rfl, rfl⟩
      · exact ⟨t, (get_by_id_mem db i t hfind).1, applyUpdate_id u now t,
          applyUpdate_created_at u now t⟩
  · intro t' ht'
    cases hrem : removeFirstById i db.glossary with
    | none =>
      rw [show (db.delete i ok).1 = db from
        congrArg Prod.fst (delete_not_found db i ok hrem)] at ht'
      exact ht'
    | some r =>
      rw [delete_found_fst db i ok r hrem] at ht'
      exact (removeFirstById_sublist i db.glossary r hrem).mem ht'
  · intro t' ht'
    rw [create_fst db td now ok] at ht'
    rcases List.mem_append.mp ht' with h | h
    · exact hts t' h
    · rcases List.mem_singleton.mp h with rfl
      exact Nat.le_refl _
  · intro t' ht'
    cases hfind : db.get_by_id i with
    | none =>
      rw [show (db.update i u now ok).1 = db from
        congrArg Prod.fst (update_not_found db i u now ok hfind)] at ht'
      exact hts t' ht'
    | some t =>
      rw [update_found_fst db i u now ok t hfind] at ht'
      rcases mem_replaceFirst _ _ _ _ ht' with h | ⟨t₀, ht₀, _, rfl⟩
      · exact hts t' h
      · rw [applyUpdate_created_at, applyUpdate_updated_at]
        exact hclock t (get_by_id_mem db i t hfind).1
  · intro t' ht'
    cases hrem : removeFirstById i db.glossary with
    | none =>
      rw [show (db.delete i ok).1 = db from
        congrArg Prod.fst (delete_not_found db i ok hrem)] at ht'
      exact hts t' ht'
    | some r =>
      rw [delete_found_fst db i ok r hrem] at ht'
      exact hts t' ((removeFirstById_sublist i db.glossary r hrem).mem ht')

/-- Witness for C5 on the one-record store at a later instant. -/
theorem claim_C5_witness :
    (sampleDb.new_term sampleCreate 7).created_at = 7 ∧
    (sampleDb.new_term sampleCreate 7).updated_at = 7 :=
  (claim_C5_timestamp_invariants sampleDb sampleCreate 1 emptyUpdate 7 true
    (by decide) (by decide)).1 (sampleDb.new_term sampleCreate 7) rfl

/-- C6: `delete` on an absent id returns `False` without touching state
or persistence (so repeating a delete yields not-found again), and on a
present id removes exactly that record, persists, and returns `True`. -/
theorem claim_C6_delete_idempotent_notfound (db : GlossaryDatabase)
    (i : Nat) (ok ok2 : Bool)
    (hnodup : (idsOf db.glossary).Nodup) :
    ((∀ t ∈ db.glossary, t.id ≠ i) → db.delete i ok = (db, .ok false)) ∧
    (∀ t ∈ db.glossary, t.id = i →
      (db.delete i true).2 = .ok true ∧
      (db.delete i true).1.glossary = db.glossary.filter (fun s => !(s.id == i)) ∧
      (db.delete i true).1.glossary.length + 1 = db.glossary.length ∧
      ((db.delete i true).1.delete i ok2).2 = .ok false) := by
  constructor
  · intro habs
    exact delete_not_found db i ok ((removeFirstById_eq_none_iff i db.glossary).mpr habs)
  · intro t htm hid
    cases hrem : removeFirstById i db.glossary with
    | none => exact absurd hid ((removeFirstById_eq_none_iff i db.glossary).mp hrem t htm)
    | some r =>
      have hfst := delete_found_fst db i true r hrem
      have hfilter := removeFirstById_of_nodup i db.glossary r hnodup hrem
      refine ⟨delete_found_snd_ok db i r hrem, ?_, ?_, ?_⟩
      · rw [hfst, hfilter]
      · rw [hfst]
        exact removeFirstById_length i db.glossary r hrem
      · have habs2 : ∀ s ∈ (db.delete i true).1.glossary, s.id ≠ i := by
          intro s hsm
          rw [hfst, hfilter] at hsm
          have := (List.mem_filter.mp hsm).2
          simpa using this
        have hrem2 : removeFirstById i (db.delete i true).1.glossary = none :=
          (removeFirstById_eq_none_iff i _).mpr habs2
        rw [show ((db.delete i true).1.delete i ok2).2 =
          ((db.delete i true).1, Except.ok false).2 from
          congrArg Prod.snd (delete_not_found (db.delete i true).1 i ok2 hrem2)]

/-- Witness for C6: deleting the only record succeeds once, then the
repeated delete reports not-found. -/
theorem claim_C6_witness :
    (sampleDb.delete 1 true).2 = .ok true ∧
    ((sampleDb.delete 1 true).1.delete 1 true).2 = .ok false := by
  obtain ⟨hok, _, _, hsecond⟩ :=
    (claim_C6_delete_idempotent_notfound sampleDb 1 true true (by decide)).2
      sampleTerm (by decide) rfl
  exact ⟨hok, hsecond⟩

/-- C7: `create` allocates the counter id, stamps both timestamps with
the current instant, normalizes absent optional fields (empty sequences,
empty source, category defaulting to "General"), appends the new record
at the end, and returns it on successful persistence. -/
theorem claim_C7_create_normalizes_and_appends (db : GlossaryDatabase)
    (title definition : String) (category : Option String)
    (examples related_terms : Option (List String))
    (source : Option String) (now : Nat) :
    let td := mkGlossaryTermCreate title definition category
        examples related_terms source
    ∃ t, (db.create td now true).2 = .ok t ∧
      (db.create td now true).1.glossary = db.glossary ++ [t] ∧
      (db.create td now true).1.next_id = db.next_id + 1 ∧
      t.id = db.next_id ∧ t.created_at = now ∧ t.updated_at = now ∧
      t.title = title ∧ t.definition = definition ∧
      t.category = some (category.getD "General") ∧
      (category = none → t.category = some "General") ∧
      t.examples = examples.getD [] ∧ (examples = none → t.examples = []) ∧
      t.related_terms = related_terms.getD [] ∧
      (related_terms = none → t.related_terms = []) ∧
      t.source = source.getD "" ∧ (source = none → t.source = "") := by
  intro td
  refine ⟨db.new_term td now, create_snd_ok db td now,
    (by rw [create_fst db td now true]), (by rw [create_fst db td now true]),
    rfl, rfl, rfl, rfl, rfl, rfl, ?_, rfl, ?_, rfl, ?_, rfl, ?_⟩
  · intro h; subst h; rfl
  · intro h; subst h; rfl
  · intro h; subst h; rfl
  · intro h; subst h; rfl

/-- Witness for C7 at the empty store: the first id is 1 and the
optional fields normalize. -/
theorem claim_C7_witness :
    ∃ t, (GlossaryDatabase.create { glossary := [], next_id := 1 }
        (mkGlossaryTermCreate "Oracle"
          "A service that feeds external data to a blockchain"
          (some "Infrastructure") none none none) 11 true).2 = .ok t ∧
      t.id = 1 ∧ t.examples = [] ∧ t.related_terms = [] := by
  obtain ⟨t, hok, _, _, hid, _, _, _, _, _, _, hex, _, hrel, hrest⟩ :=
    claim_C7_create_normalizes_and_appends { glossary := [], next_id := 1 }
      "Oracle" "A service that feeds external data to a blockchain"
      (some "Infrastructure") none none none 11
  exact ⟨t, hok, hid, hex, hrel⟩

/-- C8: the list endpoint returns the contiguous slice of the full
collection starting at `skip` with at most `limit` items, together with
the total count and the applied parameters; over 25 records, skip 0 /
limit 10 yields 10 items with total 25, and skip 20 / limit 10 yields
5 items. -/
theorem claim_C8_pagination_slice (db : GlossaryDatabase) (skip limit : Nat)
    (h1 : 1 ≤ limit) (h2 : limit ≤ 1000) :
    (get_all_terms db skip limit).total = db.glossary.length ∧
    (get_all_terms db skip limit).skip = skip ∧
    (get_all_terms db skip limit).limit = limit ∧
    (get_all_terms db skip limit).items.length =
      min limit (db.glossary.length - skip) ∧
    (∀ j : Nat, (get_all_terms db skip limit).items[j]? =
      if j < limit then db.glossary[skip + j]? else none) ∧
    (db.glossary.length = 25 →
      (get_all_terms db 0 10).items.length = 10 ∧
      (get_all_terms db 0 10).total = 25 ∧
      (get_all_terms db 20 10).items.length = 5) := by
  refine ⟨rfl, rfl, rfl, ?_, ?_, ?_⟩
  · show ((db.glossary.drop skip).take limit).length = _
    rw [List.length_take, List.length_drop]
  · intro j
    show ((db.glossary.drop skip).take limit)[j]? = _
    rw [List.getElem?_take]
    by_cases hj : j < limit
    · rw [if_pos hj, if_pos hj, List.getElem?_drop]
    · rw [if_neg hj, if_neg hj]
  · intro h
    refine ⟨?_, ?_, ?_⟩
    · show ((db.glossary.drop 0).take 10).length = 10
      rw [List.length_take, List.length_drop, h]
      decide
    · show db.glossary.length = 25
      exact h
    · show ((db.glossary.drop 20).take 10).length = 5
      rw [List.length_take, List.length_drop, h]
      decide

/-- Witness for C8 over a concrete 25-record collection. -/
theorem claim_C8_witness :
    (get_all_terms
      { glossary := (List.range 25).map (fun n =>
          { sampleTerm with id := n + 1 }), next_id := 26 } 20 10).items.length = 5 :=
  ((claim_C8_pagination_slice
    { glossary := (List.range 25).map (fun n => { sampleTerm with id := n + 1 })
      next_id := 26 } 20 10 (by decide) (by decide)).2.2.2.2.2
    (by simp)).2.2

/-- C9: persistence round-trips losslessly: serializing any collection
and reloading the store reproduces every record with identical field
values and timestamps, including non-ASCII text. -/
theorem claim_C9_persistence_roundtrip (g : List Term) (db : GlossaryDatabase) :
    dataFromJson (dataToJson g) = some g ∧
    GlossaryDatabase.init (some (dataToJson db.glossary)) =
      .ok { glossary := db.glossary
            next_id := GlossaryDatabase._get_next_id db.glossary } := by
  refine ⟨dataFromJson_dataToJson g, ?_⟩
  rw [GlossaryDatabase.init, dataFromJson_dataToJson]

/-- Witness for C9 on a record holding Cyrillic text. -/
theorem claim_C9_witness :
    dataFromJson (dataToJson [sampleTermRu]) = some [sampleTermRu] :=
  (claim_C9_persistence_roundtrip [sampleTermRu]
    { glossary := [], next_id := 1 }).1

/-- C10: a field present in the partial update but explicitly null is
ignored by `update` — the stored field keeps its previous value — so a
present category can never be cleared to an absent one through
`update`. -/
theorem claim_C10_null_update_ignored (db : GlossaryDatabase) (i : Nat)
    (u : GlossaryTermUpdate) (now : Nat) (t : Term)
    (hfind : db.get_by_id i = some t) :
    ∃ t', (db.update i u now true).2 = .ok (some t') ∧
      (u.title = .null → t'.title = t.title) ∧
      (u.definition = .null → t'.definition = t.definition) ∧
      (u.category = .null → t'.category = t.category) ∧
      (u.examples = .null → t'.examples = t.examples) ∧
      (u.related_terms = .null → t'.related_terms = t.related_terms) ∧
      (u.source = .null → t'.source = t.source) ∧
      (∀ c, t.category = some c → ∃ c', t'.category = some c') := by
  refine ⟨applyUpdate u now t, update_found_snd_ok db i u now t hfind,
    ?_, ?_, ?_, ?_, ?_, ?_, ?_⟩
  · intro hv; simp [applyUpdate, applyUpd, hv]
  · intro hv; simp [applyUpdate, applyUpd, hv]
  · intro hv; simp [applyUpdate, hv]
  · intro hv; simp [applyUpdate, applyUpd, hv]
  · intro hv; simp [applyUpdate, applyUpd, hv]
  · intro hv; simp [applyUpdate, applyUpd, hv]
  · intro c hc
    cases hu : u.category with
    | set v => exact ⟨v, by simp [applyUpdate, hu]⟩
    | null => exact ⟨c, by simp [applyUpdate, hu, hc]⟩
    | unset => exact ⟨c, by simp [applyUpdate, hu, hc]⟩

/-- Witness for C10: an all-null update keeps the stored source. -/
theorem claim_C10_witness :
    ∃ t', (sampleDb.update 1 nullUpdate 8 true).2 = .ok (some t') ∧
      t'.source = sampleTerm.source := by
  obtain ⟨t', hok, _, _, _, _, _, hsrc, _⟩ :=
    claim_C10_null_update_ignored sampleDb 1 nullUpdate 8 sampleTerm rfl
  exact ⟨t', hok, hsrc rfl⟩
